import Mathlib

/-!
Verification of the valuation service (`Task_2_Valuation_service/main.py`)
and the FizzBuzz routine (`Task_1_FizzBuzz/main.py`).

Numbers: Python `float` values are modelled as exact rationals (`ℚ`);
Python `int` as `ℤ`. Python exceptions are modelled by `Except` with one
constructor per exception class the code can raise.
-/

namespace Valuation

/-- A product record, as produced by `load_data` (main.py lines 38-44). -/
structure Product where
  id : Int
  price : ℚ
  currency : String
  quantity : Int
  matching_id : Int
deriving DecidableEq

/-- A matching record, as produced by `load_matchings` (main.py lines 63-66). -/
structure Matching where
  matching_id : Int
  top_priced_count : Int
deriving DecidableEq

/-- A valuation result row, as assembled at main.py lines 121-127. -/
structure ValuationResult where
  matching_id : Int
  total_price : ℚ
  avg_price : ℚ
  currency : String
  ignored_products_count : Int
deriving DecidableEq

/-- The Python exceptions that `calculate_valuation` can raise:
`ZeroDivisionError` at line 112, `IndexError` at line 114,
`KeyError` at line 116. -/
inductive ValErr where
  | zeroDivisionError
  | indexError
  | keyError (key : String)
deriving DecidableEq

/-- The extended price `price * quantity` used as sort key and summand
(main.py lines 107 and 111). -/
def extPrice (p : Product) : ℚ := p.price * (p.quantity : ℚ)

/-- Stable descending insertion of a product into a list already sorted
descending by `extPrice`: `x` passes over strictly greater keys and is
placed before the first element whose key is `≤` its own, so elements
with equal keys keep their original relative order. -/
def insertDesc (x : Product) : List Product → List Product
  | [] => [x]
  | y :: ys => if extPrice x < extPrice y then y :: insertDesc x ys else x :: y :: ys

/-- Stable descending sort by extended price. Python's `list.sort` with
`key=lambda x: x['price'] * x['quantity'], reverse=True` (main.py line 107)
is a stable sort under the same total preorder; a stable sort's output is
determined by the input, so this insertion sort is extensionally the same
function. -/
def sortDesc : List Product → List Product
  | [] => []
  | x :: xs => insertDesc x (sortDesc xs)

/-- The list comprehension at main.py line 106: products of one group,
in input order. -/
def filteredProducts (data : List Product) (mid : Int) : List Product :=
  data.filter (fun p => p.matching_id = mid)

/-- The group's products after the sort at main.py line 107. -/
def sortedProducts (data : List Product) (mid : Int) : List Product :=
  sortDesc (filteredProducts data mid)

/-- Python's `l[:n]` slice: clamps at the length for large `n`, and counts
from the end for negative `n`. -/
def pySliceTo (l : List Product) (n : Int) : List Product :=
  if 0 ≤ n then l.take n.toNat else l.take ((l.length : Int) + n).toNat

/-- The top set `products[:top_priced_count]` (main.py line 108). -/
def topProductsOf (data : List Product) (m : Matching) : List Product :=
  pySliceTo (sortedProducts data m.matching_id) m.top_priced_count

/-- `total_price` before any conversion (main.py line 111). -/
def totalPriceOf (data : List Product) (m : Matching) : ℚ :=
  ((topProductsOf data m).map extPrice).sum

/-- `avg_price` before any conversion (main.py line 112). -/
def avgPriceOf (data : List Product) (m : Matching) : ℚ :=
  totalPriceOf data m / (m.top_priced_count : ℚ)

/-- The loop body of `calculate_valuation` for one matching
(main.py lines 103-127). The `top_priced_count = 0` test models the
`ZeroDivisionError` raised by `total_price / top_priced_count` at
line 112 (which Python hits before indexing `top_products[0]`); the
empty-`top` case models the `IndexError` at line 114; the failed
dictionary lookup models the `KeyError` at line 116. -/
def valuateMatching (data : List Product) (currencies : List (String × ℚ))
    (m : Matching) : Except ValErr ValuationResult :=
  if m.top_priced_count = 0 then .error .zeroDivisionError
  else
    match topProductsOf data m with
    | [] => .error .indexError
    | p :: _ =>
      if p.currency ≠ "PLN" then
        match List.lookup p.currency currencies with
        | none => .error (.keyError p.currency)
        | some ratio =>
            .ok ⟨m.matching_id, totalPriceOf data m * ratio,
                 avgPriceOf data m * ratio, "PLN",
                 ((sortedProducts data m.matching_id).length : Int) - m.top_priced_count⟩
      else
        .ok ⟨m.matching_id, totalPriceOf data m, avgPriceOf data m,
             p.currency,
             ((sortedProducts data m.matching_id).length : Int) - m.top_priced_count⟩

/-- `calculate_valuation` (main.py lines 89-130): one pass over the
matchings, appending one result per matching; a raised exception
propagates out of the loop, discarding the partial list. -/
def calculate_valuation (data : List Product) (matchings : List Matching)
    (currencies : List (String × ℚ)) : Except ValErr (List ValuationResult) :=
  match matchings with
  | [] => .ok []
  | m :: rest =>
    match valuateMatching data currencies m with
    | .error e => .error e
    | .ok r =>
      match calculate_valuation data rest currencies with
      | .error e => .error e
      | .ok rs => .ok (r :: rs)

/-- The `__main__` pipeline around the engine (main.py lines 229-233):
`save_results` receives the result list only if `calculate_valuation`
returned normally; an exception aborts the run before any write, so
`none` means nothing was handed to the writer. -/
def run_job (data : List Product) (matchings : List Matching)
    (currencies : List (String × ℚ)) : Option (List ValuationResult) :=
  match calculate_valuation data matchings currencies with
  | .ok rs => some rs
  | .error _ => none

/-- The three in-memory collections as loaded before the Engine phase. -/
structure Store where
  data : List Product
  matchings : List Matching
  currencies : List (String × ℚ)
deriving DecidableEq

/-- State-passing rendering of the `for matching in matchings` loop of
`calculate_valuation` (main.py lines 102-128): every iteration receives the
store, only reads `data` and `currencies` from it (the line 106 list
comprehension allocates a fresh local list, so the line 107 in-place sort
never touches `data`), and hands the store on. -/
def calc_loop_st (s : Store) : List Matching → Except ValErr (List ValuationResult) × Store
  | [] => (.ok [], s)
  | m :: rest =>
    match valuateMatching s.data s.currencies m with
    | .error e => (.error e, s)
    | .ok r =>
      let res := calc_loop_st s rest
      match res.1 with
      | .error e => (.error e, res.2)
      | .ok rs => (.ok (r :: rs), res.2)

/-- `calculate_valuation` as a state transformer on the loaded collections. -/
def calculate_valuation_st (s : Store) : Except ValErr (List ValuationResult) × Store :=
  calc_loop_st s s.matchings

/-- One CSV record of `data.csv` as `csv.DictReader` hands it to
`load_data`: every field still a string. -/
structure RawRow where
  id : String
  price : String
  currency : String
  quantity : String
  matching_id : String
deriving DecidableEq

/-- The `ValueError` raised by a failed `int(...)` or `float(...)`
conversion during loading. -/
inductive LoadErr where
  | parseError
deriving DecidableEq

/-- Run of decimal digits, accumulated left to right. -/
def parseDigitsFrom (acc : Nat) : List Char → Option Nat
  | [] => some acc
  | c :: cs =>
    if c.isDigit then parseDigitsFrom (acc * 10 + (c.toNat - ('0').toNat)) cs
    else none

/-- A nonempty run of decimal digits. -/
def parseNat (cs : List Char) : Option Nat :=
  match cs with
  | [] => none
  | _ :: _ => parseDigitsFrom 0 cs

/-- Python `int(s)` on a plain decimal literal with optional sign. -/
def pyInt (s : String) : Option Int :=
  match s.toList with
  | [] => none
  | c :: cs =>
    if c = '-' then (parseNat cs).map (fun n => -(n : Int))
    else (parseNat (c :: cs)).map (fun n => (n : Int))

/-- Python `float(s)` on an unsigned plain decimal literal such as
`"1000"` or `"2.4"` (the forms the loader meets), as an exact rational. -/
def pyFloatChars (cs : List Char) : Option ℚ :=
  let ip := cs.takeWhile (fun c => c ≠ '.')
  let rest := cs.dropWhile (fun c => c ≠ '.')
  match rest with
  | [] => (parseNat ip).map (fun n => (n : ℚ))
  | _ :: frac =>
    match parseNat ip, parseNat frac with
    | some n, some fn => some ((n : ℚ) + (fn : ℚ) / ((10 : ℚ) ^ frac.length))
    | _, _ => none

/-- Python `float(s)` on a plain decimal literal, with optional sign. -/
def pyFloat (s : String) : Option ℚ :=
  match s.toList with
  | [] => none
  | c :: cs =>
    if c = '-' then (pyFloatChars cs).map Neg.neg
    else pyFloatChars (c :: cs)

/-- Python `d[k] = v` on a dict: replaces the value at an existing key,
otherwise appends the binding (insertion order preserved). -/
def dictInsert (d : List (String × ℚ)) (k : String) (v : ℚ) : List (String × ℚ) :=
  if d.any (fun kv => kv.1 = k) then
    d.map (fun kv => if kv.1 = k then (k, v) else kv)
  else d ++ [(k, v)]

/-- The row loop of `load_currencies` (main.py lines 14-21), started from
the accumulated dict. -/
def load_currencies_from (acc : List (String × ℚ)) :
    List (String × String) → Except LoadErr (List (String × ℚ))
  | [] => .ok acc
  | (c, ratioStr) :: rest =>
    match pyFloat ratioStr with
    | none => .error .parseError
    | some r => load_currencies_from (dictInsert acc c r) rest

/-- `load_currencies` (main.py lines 4-21) over the parsed CSV rows
`(currency, ratio)`. -/
def load_currencies (rows : List (String × String)) :
    Except LoadErr (List (String × ℚ)) :=
  load_currencies_from [] rows

/-- The per-row body of `load_data` (main.py lines 38-44): four numeric
conversions, while the `currency` field is copied verbatim — no lookup
against any currency table happens here. -/
def parseProduct (row : RawRow) : Except LoadErr Product :=
  match pyInt row.id, pyFloat row.price, pyInt row.quantity, pyInt row.matching_id with
  | some i, some pr, some q, some mid =>
      .ok { id := i, price := pr, currency := row.currency,
            quantity := q, matching_id := mid }
  | _, _, _, _ => .error .parseError

/-- `load_data` (main.py lines 24-46) over the parsed CSV rows. -/
def load_data (rows : List RawRow) : Except LoadErr (List Product) :=
  match rows with
  | [] => .ok []
  | row :: rest =>
    match parseProduct row with
    | .error e => .error e
    | .ok p =>
      match load_data rest with
      | .error e => .error e
      | .ok ps => .ok (p :: ps)

/-- A concrete foreign-currency product used to exercise the conversion
branch. -/
def c2p : Product := ⟨1, 10, "EU", 1, 1⟩

/-- A concrete currency table with ratio 2 for `EU`. -/
def c2currencies : List (String × ℚ) := [("EU", 2)]

/-- A concrete matching selecting the single top product. -/
def c2m : Matching := ⟨1, 1⟩

/-- The result the engine produces for `c2p` under `c2m`. -/
def c2r : ValuationResult := ⟨1, 20, 20, "PLN", 0⟩

end Valuation

namespace FB

/-- One printed line of `fizzbuzz` for the integer `num`
(Task_1_FizzBuzz/main.py lines 3-10). Python `%` on `int` agrees with
`Int.emod` (nonnegative remainder for a positive modulus) and
`print(num)` prints the decimal form, which `toString` reproduces. -/
def fizzbuzzLine (num : Int) : String :=
  if num % 3 = 0 ∧ num % 5 = 0 then "FizzBuzz"
  else if num % 3 = 0 then "Fizz"
  else if num % 5 = 0 then "Buzz"
  else toString num

/-- Python `range(a, c)`: the integers `a, a+1, …, c-1`, empty when `c ≤ a`. -/
def pyRange (a c : Int) : List Int :=
  List.map (fun i : Nat => a + (i : Int)) (List.range (c - a).toNat)

/-- `fizzbuzz(a, b)` (Task_1_FizzBuzz/main.py lines 1-10), modelled as the
list of printed lines: one line per integer of `range(a, b + 1)`. -/
def fizzbuzz (a b : Int) : List String :=
  (pyRange a (b + 1)).map fizzbuzzLine

end FB

namespace Valuation

theorem mem_insertDesc {x a : Product} {l : List Product} :
    a ∈ insertDesc x l ↔ a = x ∨ a ∈ l := by
  induction l with
  | nil => simp [insertDesc]
  | cons y ys ih =>
    simp only [insertDesc]
    split <;> simp [List.mem_cons, ih]
    tauto

theorem insertDesc_perm (x : Product) (l : List Product) :
    List.Perm (insertDesc x l) (x :: l) := by
  induction l with
  | nil => simp [insertDesc]
  | cons y ys ih =>
    simp only [insertDesc]
    split
    · exact (ih.cons y).trans (List.Perm.swap x y ys)
    · exact List.Perm.refl _

theorem sortDesc_perm (l : List Product) : List.Perm (sortDesc l) l := by
  induction l with
  | nil => exact List.Perm.refl _
  | cons x xs ih => exact (insertDesc_perm x (sortDesc xs)).trans (ih.cons x)

theorem length_sortDesc (l : List Product) : (sortDesc l).length = l.length :=
  (sortDesc_perm l).length_eq

theorem pairwise_insertDesc {x : Product} {l : List Product}
    (h : l.Pairwise (fun a b => extPrice b ≤ extPrice a)) :
    (insertDesc x l).Pairwise (fun a b => extPrice b ≤ extPrice a) := by
  induction l with
  | nil => simp [insertDesc]
  | cons y ys ih =>
    rcases List.pairwise_cons.mp h with ⟨hy, hys⟩
    simp only [insertDesc]
    split
    · rename_i hlt
      refine List.pairwise_cons.mpr ⟨?_, ih hys⟩
      intro b hb
      rcases mem_insertDesc.mp hb with rfl | hb
      · exact le_of_lt hlt
      · exact hy b hb
    · rename_i hge
      push_neg at hge
      refine List.pairwise_cons.mpr ⟨?_, h⟩
      intro b hb
      rcases List.mem_cons.mp hb with rfl | hb
      · exact hge
      · exact le_trans (hy b hb) hge

theorem sortDesc_sorted (l : List Product) :
    (sortDesc l).Pairwise (fun a b => extPrice b ≤ extPrice a) := by
  induction l with
  | nil => simp [sortDesc]
  | cons x xs ih => exact pairwise_insertDesc ih

theorem filter_insertDesc_neg {v : ℚ} {x : Product} (l : List Product)
    (hx : extPrice x ≠ v) :
    (insertDesc x l).filter (fun a => decide (extPrice a = v)) =
      l.filter (fun a => decide (extPrice a = v)) := by
  induction l with
  | nil => simp [insertDesc, hx]
  | cons y ys ih =>
    simp only [insertDesc]
    split
    · simp only [List.filter_cons, ih]
    · simp [List.filter_cons, hx]

theorem filter_insertDesc_pos {v : ℚ} {x : Product} (l : List Product)
    (hx : extPrice x = v) :
    (insertDesc x l).filter (fun a => decide (extPrice a = v)) =
      x :: l.filter (fun a => decide (extPrice a = v)) := by
  induction l with
  | nil => simp [insertDesc, hx]
  | cons y ys ih =>
    simp only [insertDesc]
    split
    · rename_i hlt
      have hy : ¬ (extPrice y = v) := by
        rw [← hx]
        exact (ne_of_gt hlt)
      simp [List.filter_cons, hy, ih]
    · simp [List.filter_cons, hx]

theorem filter_sortDesc (l : List Product) (v : ℚ) :
    (sortDesc l).filter (fun a => decide (extPrice a = v)) =
      l.filter (fun a => decide (extPrice a = v)) := by
  induction l with
  | nil => simp [sortDesc]
  | cons x xs ih =>
    by_cases hx : extPrice x = v
    · simp only [sortDesc, filter_insertDesc_pos _ hx, ih, List.filter_cons]
      simp [hx]
    · simp only [sortDesc, filter_insertDesc_neg _ hx, ih, List.filter_cons]
      simp [hx]

/-- C1: for every matching group, the engine sorts the group's products in
descending order of extended price (`price * quantity`), and products of
equal extended price keep the relative order they had in the original
input product list. -/
theorem c1_sort_descending_stable (data : List Product) (mid : Int) :
    List.Perm (sortedProducts data mid) (filteredProducts data mid) ∧
    (sortedProducts data mid).Pairwise (fun x y => extPrice y ≤ extPrice x) ∧
    ∀ v : ℚ, (sortedProducts data mid).filter (fun p => decide (extPrice p = v)) =
      data.filter (fun p => decide (p.matching_id = mid ∧ extPrice p = v)) := by
  refine ⟨sortDesc_perm _, sortDesc_sorted _, ?_⟩
  · intro v
    rw [sortedProducts, filter_sortDesc, filteredProducts, List.filter_filter]
    apply List.filter_congr
    intro p _
    simp [decide_eq_true_eq, Bool.and_comm]

theorem pySliceTo_nil (n : Int) : pySliceTo [] n = [] := by
  unfold pySliceTo
  split <;> simp

theorem valuateMatching_ok_cases (data : List Product) (currencies : List (String × ℚ))
    (m : Matching) (r : ValuationResult)
    (hok : valuateMatching data currencies m = .ok r) :
    m.top_priced_count ≠ 0 ∧
    ∃ p rest, topProductsOf data m = p :: rest ∧
      ((p.currency = "PLN" ∧
        r = ⟨m.matching_id, totalPriceOf data m, avgPriceOf data m, p.currency,
             ((sortedProducts data m.matching_id).length : Int) - m.top_priced_count⟩) ∨
       (p.currency ≠ "PLN" ∧ ∃ ratio,
        List.lookup p.currency currencies = some ratio ∧
        r = ⟨m.matching_id, totalPriceOf data m * ratio, avgPriceOf data m * ratio, "PLN",
             ((sortedProducts data m.matching_id).length : Int) - m.top_priced_count⟩)) := by
  unfold valuateMatching at hok
  split at hok
  · simp at hok
  · rename_i htpc
    split at hok
    · simp at hok
    · rename_i p rest htop
      refine ⟨htpc, p, rest, htop, ?_⟩
      split at hok
      · rename_i hc
        split at hok
        · simp at hok
        · rename_i ratio hlk
          cases hok
          exact Or.inr ⟨hc, ratio, hlk, rfl⟩
      · rename_i hc
        push_neg at hc
        cases hok
        exact Or.inl ⟨hc, rfl⟩

/-- C2: on a successful group computation, the result currency is always
the base currency `PLN`, and the conversion multiplication by
`currencies[currency]` is applied to `total_price` and `avg_price` exactly
when the first (highest-ranked) product of the top set has a non-`PLN`
currency. -/
theorem c2_currency_conversion (data : List Product) (currencies : List (String × ℚ))
    (m : Matching) (r : ValuationResult) (p : Product) (rest : List Product)
    (htop : topProductsOf data m = p :: rest)
    (hok : valuateMatching data currencies m = .ok r) :
    r.currency = "PLN" ∧
    (p.currency = "PLN" →
      r.total_price = totalPriceOf data m ∧ r.avg_price = avgPriceOf data m) ∧
    (p.currency ≠ "PLN" →
      ∃ ratio, List.lookup p.currency currencies = some ratio ∧
        r.total_price = totalPriceOf data m * ratio ∧
        r.avg_price = avgPriceOf data m * ratio) := by
  obtain ⟨-, q, qrest, hq, hcase⟩ := valuateMatching_ok_cases data currencies m r hok
  rw [htop] at hq
  injection hq with h1 h2
  subst h1
  rcases hcase with ⟨hc, rfl⟩ | ⟨hc, ratio, hlk, rfl⟩
  · exact ⟨hc, fun _ => ⟨rfl, rfl⟩, fun hne => absurd hc hne⟩
  · exact ⟨rfl, fun hpe => absurd hpe hc, fun _ => ⟨ratio, hlk, rfl, rfl⟩⟩

theorem c2_currency_conversion_witness :
    c2r.currency = "PLN" ∧
    (c2p.currency = "PLN" →
      c2r.total_price = totalPriceOf [c2p] c2m ∧ c2r.avg_price = avgPriceOf [c2p] c2m) ∧
    (c2p.currency ≠ "PLN" →
      ∃ ratio, List.lookup c2p.currency c2currencies = some ratio ∧
        c2r.total_price = totalPriceOf [c2p] c2m * ratio ∧
        c2r.avg_price = avgPriceOf [c2p] c2m * ratio) :=
  c2_currency_conversion [c2p] c2currencies c2m c2r c2p []
    (by simp +decide [topProductsOf, sortedProducts, sortDesc, insertDesc, filteredProducts,
      pySliceTo, c2p, c2m])
    (by
      simp +decide [valuateMatching, topProductsOf, sortedProducts, sortDesc, insertDesc,
        filteredProducts, pySliceTo, totalPriceOf, avgPriceOf, extPrice, c2p, c2m, c2r,
        c2currencies]
      norm_num)

/-- C3 counterexample: a group with one product and `top_priced_count = 2`
is computed without any error, and its `ignored_products_count` is `-1`:
the code does not guard `top_priced_count` above the filtered count, so the
value can be negative on a successful computation. -/
theorem c3_counterexample :
    valuateMatching [⟨1, 10, "PLN", 1, 1⟩] [] ⟨1, 2⟩ = .ok ⟨1, 10, 5, "PLN", -1⟩ ∧
    ((-1 : Int) < 0) := by
  constructor
  · simp +decide [valuateMatching, topProductsOf, sortedProducts, sortDesc, insertDesc,
      filteredProducts, pySliceTo, totalPriceOf, avgPriceOf, extPrice]
    norm_num
  · decide

/-- C3 (amended): on a successful group computation,
`ignored_products_count` equals the filtered count minus
`top_priced_count`; it is nonnegative whenever `top_priced_count` is at
most the filtered count, and exactly `0` when they are equal — but when
`top_priced_count` exceeds the filtered count the computation still
succeeds and the value is negative. -/
theorem c3_ignored_count (data : List Product) (currencies : List (String × ℚ))
    (m : Matching) (r : ValuationResult)
    (hok : valuateMatching data currencies m = .ok r) :
    r.ignored_products_count =
      ((filteredProducts data m.matching_id).length : Int) - m.top_priced_count ∧
    (m.top_priced_count ≤ ((filteredProducts data m.matching_id).length : Int) →
      0 ≤ r.ignored_products_count) ∧
    (m.top_priced_count = ((filteredProducts data m.matching_id).length : Int) →
      r.ignored_products_count = 0) := by
  obtain ⟨htpc, p, rest, htop, hcase⟩ := valuateMatching_ok_cases data currencies m r hok
  have hlen : (sortedProducts data m.matching_id).length =
      (filteredProducts data m.matching_id).length := by
    rw [sortedProducts]
    exact length_sortDesc _
  have hig : r.ignored_products_count =
      ((filteredProducts data m.matching_id).length : Int) - m.top_priced_count := by
    rcases hcase with ⟨-, rfl⟩ | ⟨-, ratio, -, rfl⟩ <;> simp [hlen]
  exact ⟨hig, fun h => by omega, fun h => by omega⟩

theorem c3_ignored_count_witness :
    (⟨1, 10, 10, "PLN", 0⟩ : ValuationResult).ignored_products_count =
      ((filteredProducts [⟨1, 10, "PLN", 1, 1⟩] (1 : Int)).length : Int) - (1 : Int) ∧
    ((1 : Int) ≤ ((filteredProducts [⟨1, 10, "PLN", 1, 1⟩] (1 : Int)).length : Int) →
      0 ≤ (⟨1, 10, 10, "PLN", 0⟩ : ValuationResult).ignored_products_count) ∧
    ((1 : Int) = ((filteredProducts [⟨1, 10, "PLN", 1, 1⟩] (1 : Int)).length : Int) →
      (⟨1, 10, 10, "PLN", 0⟩ : ValuationResult).ignored_products_count = 0) :=
  c3_ignored_count [⟨1, 10, "PLN", 1, 1⟩] [] ⟨1, 1⟩ ⟨1, 10, 10, "PLN", 0⟩
    (by simp +decide [valuateMatching, topProductsOf, sortedProducts, sortDesc, insertDesc,
      filteredProducts, pySliceTo, totalPriceOf, avgPriceOf, extPrice])

/-- C4: a matching with `top_priced_count = 0` makes the group computation
fail with the division-by-zero error of `avg_price` (main.py line 112),
and a matching whose filtered product set is empty fails as well — with
the same division-by-zero error when its count is zero, and otherwise with
the index error raised when reading the first product's currency
(main.py line 114); in neither case is a `ValuationResult` produced. -/
theorem c4_zero_or_empty_fails (data : List Product) (currencies : List (String × ℚ))
    (m : Matching) :
    (m.top_priced_count = 0 →
      valuateMatching data currencies m = .error .zeroDivisionError) ∧
    (filteredProducts data m.matching_id = [] → m.top_priced_count ≠ 0 →
      valuateMatching data currencies m = .error .indexError) ∧
    ((m.top_priced_count = 0 ∨ filteredProducts data m.matching_id = []) →
      ∀ r, valuateMatching data currencies m ≠ .ok r) := by
  have h0 : m.top_priced_count = 0 →
      valuateMatching data currencies m = .error .zeroDivisionError := by
    intro h
    simp [valuateMatching, h]
  have hempty : filteredProducts data m.matching_id = [] → m.top_priced_count ≠ 0 →
      valuateMatching data currencies m = .error .indexError := by
    intro hfe htpc
    have htop : topProductsOf data m = [] := by
      rw [topProductsOf, sortedProducts, hfe]
      exact pySliceTo_nil _
    simp [valuateMatching, htpc, htop]
  refine ⟨h0, hempty, ?_⟩
  rintro (h | h) r
  · rw [h0 h]
    simp
  · by_cases htpc : m.top_priced_count = 0
    · rw [h0 htpc]
      simp
    · rw [hempty h htpc]
      simp

theorem c4_zero_or_empty_fails_witness :
    valuateMatching [] [] ⟨1, 0⟩ = .error .zeroDivisionError ∧
    valuateMatching [] [] ⟨1, 1⟩ = .error .indexError :=
  ⟨(c4_zero_or_empty_fails [] [] ⟨1, 0⟩).1 rfl,
   (c4_zero_or_empty_fails [] [] ⟨1, 1⟩).2.1 (by simp [filteredProducts]) (by decide)⟩

/-- C7: on a successful group computation, the pre-conversion
`total_price` is the sum of `price * quantity` over the top set and the
pre-conversion `avg_price` is exactly `total_price / top_priced_count`;
the produced result moreover still satisfies
`avg_price = total_price / top_priced_count` exactly, because any
conversion multiplies both by the same ratio. -/
theorem c7_avg_price (data : List Product) (currencies : List (String × ℚ))
    (m : Matching) (r : ValuationResult)
    (hok : valuateMatching data currencies m = .ok r) :
    totalPriceOf data m = ((topProductsOf data m).map extPrice).sum ∧
    avgPriceOf data m = totalPriceOf data m / (m.top_priced_count : ℚ) ∧
    r.avg_price = r.total_price / (m.top_priced_count : ℚ) := by
  obtain ⟨htpc, p, rest, htop, hcase⟩ := valuateMatching_ok_cases data currencies m r hok
  refine ⟨rfl, rfl, ?_⟩
  rcases hcase with ⟨-, rfl⟩ | ⟨-, ratio, -, rfl⟩
  · rfl
  · show avgPriceOf data m * ratio = totalPriceOf data m * ratio / (m.top_priced_count : ℚ)
    rw [avgPriceOf, div_mul_eq_mul_div]

theorem c7_avg_price_witness :
    totalPriceOf [⟨1, 10, "PLN", 1, 1⟩] ⟨1, 1⟩ =
      ((topProductsOf [⟨1, 10, "PLN", 1, 1⟩] ⟨1, 1⟩).map extPrice).sum ∧
    avgPriceOf [⟨1, 10, "PLN", 1, 1⟩] ⟨1, 1⟩ =
      totalPriceOf [⟨1, 10, "PLN", 1, 1⟩] ⟨1, 1⟩ / ((1 : Int) : ℚ) ∧
    (⟨1, 10, 10, "PLN", 0⟩ : ValuationResult).avg_price =
      (⟨1, 10, 10, "PLN", 0⟩ : ValuationResult).total_price / ((1 : Int) : ℚ) :=
  c7_avg_price [⟨1, 10, "PLN", 1, 1⟩] [] ⟨1, 1⟩ ⟨1, 10, 10, "PLN", 0⟩
    (by simp +decide [valuateMatching, topProductsOf, sortedProducts, sortDesc, insertDesc,
      filteredProducts, pySliceTo, totalPriceOf, avgPriceOf, extPrice])

theorem topProductsOf_ne_nil (data : List Product) (m : Matching)
    (hne : filteredProducts data m.matching_id ≠ [])
    (hpos : 0 < m.top_priced_count) :
    topProductsOf data m ≠ [] := by
  rw [topProductsOf, pySliceTo, if_pos (le_of_lt hpos)]
  intro h
  rcases List.take_eq_nil_iff.mp h with h1 | h1
  · omega
  · apply hne
    have hl := length_sortDesc (filteredProducts data m.matching_id)
    rw [sortedProducts] at h1
    rw [h1] at hl
    exact List.length_eq_zero.mp hl.symm

theorem mem_topProductsOf {data : List Product} {m : Matching} {p : Product}
    (hp : p ∈ topProductsOf data m) : p ∈ data := by
  have h1 : p ∈ sortedProducts data m.matching_id := by
    rw [topProductsOf, pySliceTo] at hp
    split at hp <;> exact List.mem_of_mem_take hp
  have h2 : p ∈ filteredProducts data m.matching_id :=
    ((sortDesc_perm (filteredProducts data m.matching_id)).mem_iff).mp h1
  exact List.mem_of_mem_filter h2

theorem valuateMatching_ok_of (data : List Product) (currencies : List (String × ℚ))
    (m : Matching)
    (hne : filteredProducts data m.matching_id ≠ [])
    (hpos : 0 < m.top_priced_count)
    (hcur : ∀ p ∈ data, (List.lookup p.currency currencies).isSome) :
    ∃ r, valuateMatching data currencies m = .ok r := by
  have htpc : m.top_priced_count ≠ 0 := by omega
  obtain ⟨p, rest, htop⟩ : ∃ p rest, topProductsOf data m = p :: rest := by
    cases h : topProductsOf data m with
    | nil => exact absurd h (topProductsOf_ne_nil data m hne hpos)
    | cons p rest => exact ⟨p, rest, rfl⟩
  by_cases hc : p.currency = "PLN"
  · refine ⟨⟨m.matching_id, totalPriceOf data m, avgPriceOf data m, p.currency,
      ((sortedProducts data m.matching_id).length : Int) - m.top_priced_count⟩, ?_⟩
    unfold valuateMatching
    rw [if_neg htpc, htop]
    simp [hc]
  · have hmem : p ∈ data := mem_topProductsOf (htop ▸ List.mem_cons_self p rest)
    obtain ⟨ratio, hlk⟩ := Option.isSome_iff_exists.mp (hcur p hmem)
    refine ⟨⟨m.matching_id, totalPriceOf data m * ratio, avgPriceOf data m * ratio, "PLN",
      ((sortedProducts data m.matching_id).length : Int) - m.top_priced_count⟩, ?_⟩
    unfold valuateMatching
    rw [if_neg htpc, htop]
    simp [hc, hlk]

/-- C5: when every matching group is non-empty with a positive
`top_priced_count` no larger than the group size, and every product's
currency is present in the table, `calculate_valuation` succeeds and
returns exactly one result per matching, in the iteration order of the
matching list, so the output row count equals the matching count. -/
theorem c5_one_result_per_matching (data : List Product) (matchings : List Matching)
    (currencies : List (String × ℚ))
    (hne : ∀ m ∈ matchings, filteredProducts data m.matching_id ≠ [])
    (hpos : ∀ m ∈ matchings, 0 < m.top_priced_count)
    (hle : ∀ m ∈ matchings,
      m.top_priced_count ≤ ((filteredProducts data m.matching_id).length : Int))
    (hcur : ∀ p ∈ data, (List.lookup p.currency currencies).isSome) :
    ∃ rs, calculate_valuation data matchings currencies = .ok rs ∧
      rs.length = matchings.length ∧
      ∀ (i : Nat) (hi : i < matchings.length) (hr : i < rs.length),
        valuateMatching data currencies (matchings.get ⟨i, hi⟩) = .ok (rs.get ⟨i, hr⟩) := by
  clear hle
  induction matchings with
  | nil => exact ⟨[], rfl, rfl, fun i hi => absurd hi (by simp)⟩
  | cons m rest ih =>
    obtain ⟨r, hr⟩ := valuateMatching_ok_of data currencies m
      (hne m (List.mem_cons_self m rest)) (hpos m (List.mem_cons_self m rest)) hcur
    obtain ⟨rs, hrs, hlen, hidx⟩ := ih
      (fun x hx => hne x (List.mem_cons_of_mem m hx))
      (fun x hx => hpos x (List.mem_cons_of_mem m hx))
    refine ⟨r :: rs, ?_, by simp [hlen], ?_⟩
    · unfold calculate_valuation
      rw [hr, hrs]
    · intro i hi hri
      cases i with
      | zero => exact hr
      | succ j =>
        have hj : j < rest.length := by simpa using hi
        have hrj : j < rs.length := by simpa using hri
        exact hidx j hj hrj

theorem c5_one_result_per_matching_witness :
    ∃ rs, calculate_valuation [⟨1, 10, "PLN", 2, 1⟩] [⟨1, 1⟩] [("PLN", 1)] = .ok rs ∧
      rs.length = ([⟨1, 1⟩] : List Matching).length ∧
      ∀ (i : Nat) (hi : i < ([⟨1, 1⟩] : List Matching).length) (hr : i < rs.length),
        valuateMatching [⟨1, 10, "PLN", 2, 1⟩] [("PLN", 1)]
            (([⟨1, 1⟩] : List Matching).get ⟨i, hi⟩) = .ok (rs.get ⟨i, hr⟩) :=
  c5_one_result_per_matching [⟨1, 10, "PLN", 2, 1⟩] [⟨1, 1⟩] [("PLN", 1)]
    (by decide) (by decide) (by decide) (by decide)

/-- C8: if one matching group's computation raises an error (all groups
before it having succeeded), the whole `calculate_valuation` call fails
with that error, and the `__main__` pipeline hands nothing to the result
writer — no partial result list is ever written. -/
theorem c8_fail_fast (data : List Product) (currencies : List (String × ℚ))
    (pre post : List Matching) (m : Matching) (e : ValErr)
    (hpre : ∀ x ∈ pre, ∃ r, valuateMatching data currencies x = .ok r)
    (hm : valuateMatching data currencies m = .error e) :
    calculate_valuation data (pre ++ m :: post) currencies = .error e ∧
    run_job data (pre ++ m :: post) currencies = none := by
  have hcalc : ∀ pr : List Matching,
      (∀ x ∈ pr, ∃ r, valuateMatching data currencies x = .ok r) →
      calculate_valuation data (pr ++ m :: post) currencies = .error e := by
    intro pr
    induction pr with
    | nil =>
      intro _
      simp only [List.nil_append]
      unfold calculate_valuation
      rw [hm]
    | cons m' pr' ih =>
      intro hpr
      obtain ⟨r', hr'⟩ := hpr m' (List.mem_cons_self m' pr')
      have ih' := ih (fun x hx => hpr x (List.mem_cons_of_mem m' hx))
      simp only [List.cons_append]
      unfold calculate_valuation
      rw [hr', ih']
  have h := hcalc pre hpre
  exact ⟨h, by unfold run_job; rw [h]⟩

theorem c8_fail_fast_witness :
    calculate_valuation [] ([] ++ (⟨1, 1⟩ : Matching) :: []) [] = .error .indexError ∧
    run_job [] ([] ++ (⟨1, 1⟩ : Matching) :: []) [] = none :=
  c8_fail_fast [] [] [] [] ⟨1, 1⟩ .indexError (by simp)
    (by simp +decide [valuateMatching, topProductsOf, sortedProducts, sortDesc,
      filteredProducts, pySliceTo])

theorem calc_loop_st_spec (s : Store) (ms : List Matching) :
    (calc_loop_st s ms).2 = s ∧
    (calc_loop_st s ms).1 = calculate_valuation s.data ms s.currencies := by
  induction ms with
  | nil => exact ⟨rfl, rfl⟩
  | cons m rest ih =>
    obtain ⟨ih2, ih1⟩ := ih
    simp only [calc_loop_st, calculate_valuation]
    cases hv : valuateMatching s.data s.currencies m with
    | error e => exact ⟨rfl, rfl⟩
    | ok r =>
      dsimp only
      rw [ih1, ih2]
      cases hcr : calculate_valuation s.data rest s.currencies with
      | error e => exact ⟨rfl, rfl⟩
      | ok rs => exact ⟨rfl, rfl⟩

/-- C9: the state-passing rendering of `calculate_valuation` returns the
store of loaded collections unchanged — the engine never mutates the
product list, the matching list or the currency table — and computes the
same answer as the functional `calculate_valuation`. -/
theorem c9_no_mutation (s : Store) :
    (calculate_valuation_st s).2 = s ∧
    (calculate_valuation_st s).1 = calculate_valuation s.data s.matchings s.currencies :=
  calc_loop_st_spec s s.matchings

/-- C6 counterexample: the loader does not consult the currency table at
all: with a table holding only `PLN`, `load_data` succeeds on a product
row whose currency `USD` is absent from the table, leaving a dangling
currency reference — it does not fail with a `KeyError`-class error. -/
theorem c6_counterexample :
    load_currencies [("PLN", "1.0")] = .ok [("PLN", 1)] ∧
    load_data [⟨"1", "1000", "USD", "2", "1"⟩] = .ok [⟨1, 1000, "USD", 2, 1⟩] ∧
    List.lookup "USD" [(("PLN" : String), (1 : ℚ))] = none := by
  refine ⟨?_, ?_, ?_⟩
  · simp +decide [load_currencies, load_currencies_from, pyFloat, pyFloatChars, parseNat,
      parseDigitsFrom, dictInsert]
  · simp +decide [load_data, parseProduct, pyInt, pyFloat, pyFloatChars, parseNat,
      parseDigitsFrom]
  · decide

/-- C6 (amended): the Data Loader performs no currency validation and
succeeds even when a product references a currency absent from the
CurrencyTable; the `KeyError`-class failure surfaces only later, in
`calculate_valuation`, when such a product is the top-ranked product of a
group and its currency differs from the base currency `PLN`. -/
theorem c6_key_error_in_engine (data : List Product) (currencies : List (String × ℚ))
    (m : Matching) (p : Product) (rest : List Product)
    (htop : topProductsOf data m = p :: rest)
    (htpc : m.top_priced_count ≠ 0)
    (hc : p.currency ≠ "PLN")
    (hlk : List.lookup p.currency currencies = none) :
    valuateMatching data currencies m = .error (.keyError p.currency) := by
  unfold valuateMatching
  rw [if_neg htpc, htop]
  simp [hc, hlk]

theorem c6_key_error_in_engine_witness :
    valuateMatching [⟨1, 10, "USD", 1, 1⟩] [] ⟨1, 1⟩ =
      .error (.keyError (⟨1, 10, "USD", 1, 1⟩ : Product).currency) :=
  c6_key_error_in_engine [⟨1, 10, "USD", 1, 1⟩] [] ⟨1, 1⟩ ⟨1, 10, "USD", 1, 1⟩ []
    (by simp +decide [topProductsOf, sortedProducts, sortDesc, insertDesc,
      filteredProducts, pySliceTo])
    (by decide) (by decide) (by decide)

end Valuation

namespace FB

/-- C10: `fizzbuzz(a, b)` prints exactly one line per integer of the
inclusive range `a..b`, in ascending order — `FizzBuzz` for multiples of
both 3 and 5, else `Fizz` for multiples of 3, else `Buzz` for multiples
of 5, else the number itself — and prints nothing when `a > b`. -/
theorem c10_fizzbuzz (a b : Int) :
    (b < a → fizzbuzz a b = []) ∧
    (fizzbuzz a b).length = (b + 1 - a).toNat ∧
    ∀ (i : Nat) (hi : i < (fizzbuzz a b).length),
      (fizzbuzz a b).get ⟨i, hi⟩ =
        (if (3 : Int) ∣ (a + (i : Int)) ∧ (5 : Int) ∣ (a + (i : Int)) then "FizzBuzz"
         else if (3 : Int) ∣ (a + (i : Int)) then "Fizz"
         else if (5 : Int) ∣ (a + (i : Int)) then "Buzz"
         else toString (a + (i : Int))) := by
  refine ⟨?_, ?_, ?_⟩
  · intro h
    have h0 : (b + 1 - a).toNat = 0 := by omega
    rw [fizzbuzz, pyRange, h0]
    rfl
  · rw [fizzbuzz, List.length_map, pyRange, List.length_map, List.length_range]
  · intro i hi
    rw [List.get_eq_getElem]
    simp only [fizzbuzz, pyRange, List.getElem_map, List.getElem_range]
    rw [fizzbuzzLine]
    simp only [Int.dvd_iff_emod_eq_zero]

theorem c10_fizzbuzz_witness :
    fizzbuzz 16 15 = [] ∧ (fizzbuzz 1 15).length = 15 :=
  ⟨(c10_fizzbuzz 16 15).1 (by decide),
   ((c10_fizzbuzz 1 15).2.1).trans (by decide)⟩

end FB
